import Mathlib

/-!
Verification of the uk-course-finder data pipeline.

The Python sources are shallowly embedded as executable Lean definitions:
strings become `List Char` (with `String` wrappers at the API), pandas
nullable values become `Option`, rank values become `ℚ`.  Each definition
mirrors one Python function of the repository (named in its doc comment).
-/

namespace CourseFinder

/-- Python whitespace characters (ASCII subset of `str.strip` / `str.split`):
space, tab, newline, carriage return, vertical tab, form feed. -/
def isPySpace (c : Char) : Bool :=
  c == ' ' || c == '\t' || c == '\n' || c == '\r' ||
  c == Char.ofNat 11 || c == Char.ofNat 12

/-- ASCII lower-casing of one character, as Python `str.lower` acts on the
ASCII range occurring in this repository's data. -/
def lowerChar (c : Char) : Char :=
  if 'A'.toNat ≤ c.toNat ∧ c.toNat ≤ 'Z'.toNat then Char.ofNat (c.toNat + 32) else c

/-- Python `str.lower` (ASCII range). -/
def pyLower (s : List Char) : List Char := s.map lowerChar

/-- Python `str.strip`: remove leading and trailing whitespace. -/
def pyStrip (s : List Char) : List Char :=
  ((s.dropWhile isPySpace).reverse.dropWhile isPySpace).reverse

/-- Is `needle` a prefix of the second list (Python `str.startswith` on the
full needle)? -/
def isPrefixCL : List Char → List Char → Bool
  | [], _ => true
  | _ :: _, [] => false
  | a :: as, b :: bs => a == b && isPrefixCL as bs

/-- Python substring containment `needle in hay` (contiguous substring). -/
def containsSub (needle : List Char) : List Char → Bool
  | [] => needle.isEmpty
  | c :: cs => isPrefixCL needle (c :: cs) || containsSub needle cs

/-- The ASCII decimal digits `0`-`9`, the characters matched by the Python
regex class `\d` on this repository's data. -/
def isDigitCh (c : Char) : Bool :=
  decide ('0'.toNat ≤ c.toNat ∧ c.toNat ≤ '9'.toNat)

/-- The (contiguous) run of characters of the first maximal decimal-digit run
of the string, as matched by the Python regex `\d+` under `re.search`. -/
def firstDigitRun : List Char → Option (List Char)
  | [] => none
  | c :: cs =>
    if isDigitCh c then some (c :: cs.takeWhile isDigitCh)
    else firstDigitRun cs

/-- Decimal value of a digit string (`int` applied to a regex `\d+` match). -/
def digitsToNat (ds : List Char) : Nat :=
  ds.foldl (fun a c => a * 10 + (c.toNat - '0'.toNat)) 0

/-- The first run of decimal digits of a string, as a number: the semantics
of Python `re.search(r"(\d+)", s)` followed by `int` on the match. -/
def firstDigits (s : List Char) : Option Nat :=
  (firstDigitRun s).map digitsToNat

end CourseFinder

namespace CourseFinder

/-! ## grade_parser.py -/

/-- `GRADE_VALUES` of grade_parser.py. -/
def GRADE_VALUES : List (String × Nat) :=
  [("A*", 6), ("A", 5), ("B", 4), ("C", 3), ("D", 2), ("E", 1)]

/-- `re.findall(r"A\*|[A-E]", s)` of grade_parser.py: left-to-right scan,
at each position the alternative `A*` is tried before a single letter
`[A-E]`; unmatched characters are skipped. -/
def findGradeStrs : List Char → List String
  | [] => []
  | 'A' :: '*' :: rest => "A*" :: findGradeStrs rest
  | c :: rest =>
    if 'A'.toNat ≤ c.toNat ∧ c.toNat ≤ 'E'.toNat then String.mk [c] :: findGradeStrs rest
    else findGradeStrs rest

/-- Sum of the values of the matched grade tokens:
`sum(GRADE_VALUES.get(g, 0) for g in grades)`. -/
def gradeTokenSum (toks : List String) : Nat :=
  toks.foldl (fun acc g => acc + ((GRADE_VALUES.lookup g).getD 0)) 0

/-- Body of `parse_alevel_grades` of grade_parser.py after the null guard,
operating on the character list of the input string. -/
def parseAlevelCore (s0 : List Char) : Option Nat :=
  let low := pyLower (pyStrip s0)
  if low = [] ∨ low = "nan".data ∨ low = "not accepted".data then none
  else
    let s := pyStrip s0
    let s2 :=
      if containsSub ['-'] s ∧ ¬ isPrefixCL ['-'] s then
        let p0 := s.takeWhile (fun c => c ≠ '-')
        if "ABCDE*".data.any (fun c => containsSub [c] p0) then pyStrip p0 else s
      else s
    let grades := findGradeStrs s2
    if grades = [] then none
    else
      let total := gradeTokenSum grades
      if total > 0 then some total else none

/-- `parse_alevel_grades` of grade_parser.py; a `none` argument models the
Python `None` (or NaN) input caught by the falsy/"nan" guard. -/
def parse_alevel_grades (gradeStr : Option String) : Option Nat :=
  match gradeStr with
  | none => none
  | some s => parseAlevelCore s.data

/-- `parse_ib_points` of grade_parser.py: guard for empty/"nan"/"not
accepted", then accept the first digit run of the stripped string iff it
lies in `[20, 45]`. -/
def parse_ib_points (ibStr : String) : Option Nat :=
  let low := pyLower (pyStrip ibStr.data)
  if low = [] ∨ low = "nan".data ∨ low = "not accepted".data then none
  else
    match firstDigits (pyStrip ibStr.data) with
    | some v => if 20 ≤ v ∧ v ≤ 45 then some v else none
    | none => none

end CourseFinder

namespace CourseFinder

/-! ## subject_mapper.py -/

/-- `SUBJECT_RULES` of subject_mapper.py: the ordered table of
(QS subject label, keyword list) pairs; order encodes priority. -/
def SUBJECT_RULES : List (String × List String) :=
  [ ("Engineering - Chemical", ["chemical engineering"]),
    ("Engineering - Civil", ["civil engineering"]),
    ("Engineering - Electrical", ["electrical engineering", "electronic engineering", "electronics"]),
    ("Engineering - Mechanical", ["mechanical engineering"]),
    ("Engineering - Mineral", ["mining engineering", "mineral engineering"]),
    ("Petroleum Engineering", ["petroleum engineering"]),
    ("Medicine", ["medicine", "medical sciences", "mbbs", "mbchb", "clinical",
                  "radiography", "diagnostic imaging"]),
    ("Dentistry", ["dentistry", "dental"]),
    ("Nursing", ["nursing", "midwifery", "audiology", "speech therapy",
                 "occupational therapy", "physiotherapy"]),
    ("Pharmacy", ["pharmacy", "pharmacology", "pharmaceutical"]),
    ("Veterinary Science", ["veterinary"]),
    ("Anatomy", ["anatomy", "physiology"]),
    ("Psychology", ["psychology"]),
    ("Chemistry", ["chemistry", "chemical"]),
    ("Physics", ["physics", "astrophysics", "theoretical physics"]),
    ("Biological", ["biology", "biological", "biochemistry", "biomedical", "bioscience",
                    "genetics", "microbiology", "neuroscience", "zoology", "ecology",
                    "molecular biology", "cell biology", "biotechnology", "animal",
                    "plant science"]),
    ("Mathematics", ["mathematics", "maths", "mathematical"]),
    ("Statistics", ["statistics", "statistical", "actuarial"]),
    ("Computer Science", ["computer science", "computing", "software engineering",
                          "artificial intelligence", "data science", "informatics",
                          "cyber security", "cybersecurity"]),
    ("Data Science", ["data science", "data analytics"]),
    ("Materials Science", ["materials science", "materials engineering"]),
    ("Environmental Sciences", ["environmental science", "environmental studies",
                                "sustainability", "climate"]),
    ("Earth & Marine Sciences", ["earth science", "marine", "ocean"]),
    ("Geology", ["geology", "geological"]),
    ("Geophysics", ["geophysics"]),
    ("Engineering & Technology", ["engineering", "mechatronics", "robotics",
                                  "aerospace", "automotive", "bioengineering"]),
    ("Accounting", ["accounting"]),
    ("Business", ["business", "management", "commerce", "enterprise",
                  "finance", "banking", "investment"]),
    ("Marketing", ["marketing"]),
    ("Economics & Econometrics", ["economics", "econometrics"]),
    ("Law", ["law", "legal"]),
    ("Politics", ["politics", "political", "international relations", "government",
                  "public policy", "public administration"]),
    ("Sociology", ["sociology", "social science", "childhood studies"]),
    ("Anthropology", ["anthropology"]),
    ("Education", ["education", "teaching"]),
    ("Development Studies", ["development studies", "international development"]),
    ("Social Policy", ["social policy", "social work", "criminology"]),
    ("Communication", ["journalism", "media", "communication", "film"]),
    ("Geography", ["geography", "geographic"]),
    ("Area Studies", ["middle east", "middle eastern", "area studies"]),
    ("Hospitality", ["hospitality", "tourism"]),
    ("Sports-related Subjects", ["sport", "exercise science", "kinesiology"]),
    ("History$", ["history"]),
    ("History of Art", ["history of art", "art history"]),
    ("Archaeology", ["archaeology", "archaeological"]),
    ("Classics", ["classics", "classical", "latin", "greek", "ancient", "assyriology",
                  "egyptology"]),
    ("Philosophy", ["philosophy"]),
    ("Theology", ["theology", "religious studies", "divinity", "religion"]),
    ("English Language", ["english", "creative writing", "literature"]),
    ("Modern Languages", ["french", "german", "spanish", "italian", "portuguese",
                          "russian", "japanese", "chinese", "mandarin", "arabic",
                          "language", "linguistics", "celtic", "gaelic", "persian",
                          "korean", "slavonic", "czech", "polish", "hebrew",
                          "scandinavian", "dutch", "catalan", "romanian",
                          "bulgarian", "danish", "finnish", "hungarian",
                          "norwegian", "serbian", "croatian", "swedish",
                          "ukrainian", "yiddish", "turkish", "thai",
                          "swahili", "sanskrit"]),
    ("Linguistics", ["linguistics", "phonetics"]),
    ("Music", ["music"]),
    ("Performing Arts", ["drama", "theatre", "dance", "performing arts"]),
    ("Art & Design", ["art", "design", "fine art", "fashion", "textile", "animation",
                      "creative", "visual"]),
    ("Architecture", ["architecture"]),
    ("Natural Sciences", ["natural sciences", "science"]) ]

/-- Does some keyword of the rule occur in the lower-cased course name?
(the inner `for keyword in keywords ... break` loop of
`map_course_to_subjects`). -/
def ruleMatches (nameLower : List Char) (rule : String × List String) : Bool :=
  rule.2.any (fun kw => containsSub kw.data nameLower)

/-- `map_course_to_subjects` of subject_mapper.py: all matching subject
labels, in rule-table order, each label at most once. -/
def map_course_to_subjects (courseName : String) : List String :=
  let nameLower := pyLower courseName.data
  (SUBJECT_RULES.filter (ruleMatches nameLower)).map Prod.fst

/-- `map_course_to_primary_subject` of subject_mapper.py. -/
def map_course_to_primary_subject (courseName : String) : Option String :=
  (map_course_to_subjects courseName).head?

/-- `SUBJECT_TO_DOMAIN` of subject_mapper.py (a Python dict; modelled as an
association list with unique keys). -/
def SUBJECT_TO_DOMAIN : List (String × String) :=
  [ ("Computer Science", "Computing & Technology"),
    ("Data Science", "Computing & Technology"),
    ("Engineering & Technology", "Engineering"),
    ("Engineering - Chemical", "Engineering"),
    ("Engineering - Civil", "Engineering"),
    ("Engineering - Electrical", "Engineering"),
    ("Engineering - Mechanical", "Engineering"),
    ("Engineering - Mineral", "Engineering"),
    ("Petroleum Engineering", "Engineering"),
    ("Mathematics", "Mathematics & Statistics"),
    ("Statistics", "Mathematics & Statistics"),
    ("Physics", "Physical Sciences"),
    ("Chemistry", "Physical Sciences"),
    ("Materials Science", "Physical Sciences"),
    ("Earth & Marine Sciences", "Physical Sciences"),
    ("Geology", "Physical Sciences"),
    ("Geophysics", "Physical Sciences"),
    ("Environmental Sciences", "Physical Sciences"),
    ("Biological", "Life Sciences"),
    ("Anatomy", "Life Sciences"),
    ("Natural Sciences", "Life Sciences"),
    ("Medicine", "Medicine & Health"),
    ("Dentistry", "Medicine & Health"),
    ("Nursing", "Medicine & Health"),
    ("Pharmacy", "Medicine & Health"),
    ("Veterinary Science", "Medicine & Health"),
    ("Psychology", "Social Sciences"),
    ("Accounting", "Business & Economics"),
    ("Business", "Business & Economics"),
    ("Marketing", "Business & Economics"),
    ("Economics & Econometrics", "Business & Economics"),
    ("Hospitality", "Business & Economics"),
    ("Law", "Law"),
    ("Politics", "Social Sciences"),
    ("Sociology", "Social Sciences"),
    ("Anthropology", "Social Sciences"),
    ("Education", "Social Sciences"),
    ("Development Studies", "Social Sciences"),
    ("Social Policy", "Social Sciences"),
    ("Communication", "Social Sciences"),
    ("Geography", "Social Sciences"),
    ("Area Studies", "Social Sciences"),
    ("Sports-related Subjects", "Social Sciences"),
    ("History$", "Humanities"),
    ("History of Art", "Humanities"),
    ("Archaeology", "Humanities"),
    ("Classics", "Humanities"),
    ("Philosophy", "Humanities"),
    ("Theology", "Humanities"),
    ("English Language", "Humanities"),
    ("Modern Languages", "Humanities"),
    ("Linguistics", "Humanities"),
    ("Music", "Arts"),
    ("Performing Arts", "Arts"),
    ("Art & Design", "Arts"),
    ("Architecture", "Arts") ]

/-- `map_course_to_domain` of subject_mapper.py: domain of the primary
subject, defaulting to "Other". -/
def map_course_to_domain (courseName : String) : String :=
  match map_course_to_primary_subject courseName with
  | none => "Other"
  | some p => (SUBJECT_TO_DOMAIN.lookup p).getD "Other"

end CourseFinder

namespace CourseFinder

/-! ## data_loader.py -/

/-- Maximum of a list of rationals (`pandas Series.max` over the non-null
values of a column); `none` iff the list is empty. -/
def listMaxQ : List ℚ → Option ℚ
  | [] => none
  | x :: xs => some (xs.foldl max x)

/-- Per-column body of `normalize_ranks` of data_loader.py.  A column is the
list of one rank value per record (`none` = NaN).  `valid = df[col].dropna()`;
if it is empty the whole normalized column is set to `None`; otherwise
`max_rank = valid.max()` and each entry is mapped by the lambda
`100 * (1 - (r - 1) / (max_rank - 1)) if pd.notna(r) and max_rank > 1 else None`. -/
def normalizeColumn (col : List (Option ℚ)) : List (Option ℚ) :=
  match listMaxQ (col.filterMap id) with
  | none => col.map (fun _ => none)
  | some maxRank =>
    col.map (fun o =>
      match o with
      | none => none
      | some r => if 1 < maxRank then some (100 * (1 - (r - 1) / (maxRank - 1))) else none)

/-- The `ib_points_numeric` column produced by scripts/process_courses.py:
`df["ib_points"].str.extract(r"(\d+)").astype(float)` — the first decimal
digit run of the raw IB text, with NaN for a missing text or no digits.
data_loader.py line 33 copies this column unchanged into `ib_score`. -/
def ibScore (ibPointsRaw : Option String) : Option Nat :=
  ibPointsRaw.bind (fun s => firstDigits s.data)

/-- A row of data/courses.csv as far as the joins of
`load_master_dataframe` are concerned: its two key fields. -/
structure CourseRow where
  university : String
  course : String
deriving DecidableEq, Repr

/-- A course row enriched with the `domain` and `qs_subject` columns that
`load_master_dataframe` derives from the course title (lines 28-29). -/
structure EnrichedCourse where
  base : CourseRow
  domain : String
  qs_subject : Option String
deriving DecidableEq, Repr

/-- A row of data/rankings_global.csv (join key only: `university`; the rank
and score payload columns do not affect the join). -/
structure GlobalRankRow where
  university : String
deriving DecidableEq, Repr

/-- A row of data/rankings_subject.csv (join keys `university`, `subject`). -/
structure SubjectRankRow where
  university : String
  subject : String
deriving DecidableEq, Repr

/-- A row of data/med_schools.csv (join key `university`). -/
structure MedRow where
  university : String
deriving DecidableEq, Repr

/-- A row of data/oxbridge_admissions.csv (join keys `university` and
`course_match = course_clean`). -/
structure OxbridgeRow where
  university : String
  course_match : String
deriving DecidableEq, Repr

/-- pandas `left.merge(right, how="left")`: every left row paired with each
matching right row, or with `none` when no right row matches. -/
def leftMerge {α β : Type} (ls : List α) (rs : List β) (m : α → β → Bool) :
    List (α × Option β) :=
  match ls with
  | [] => []
  | a :: as =>
    (match rs.filter (m a) with
     | [] => [(a, none)]
     | b :: bs => (b :: bs).map (fun x => (a, some x))) ++ leftMerge as rs m

/-- Stage after the global-rankings merge of `load_master_dataframe`. -/
abbrev Stage1 := EnrichedCourse × Option GlobalRankRow

/-- Stage after the subject-rankings merge. -/
abbrev Stage2 := Stage1 × Option SubjectRankRow

/-- Stage after the medical-school split/merge/concat. -/
abbrev Stage3 := Stage2 × Option MedRow

/-- Stage after the Oxbridge-admissions merge: the master record shape. -/
abbrev Stage4 := Stage3 × Option OxbridgeRow

/-- The course row carried by a master record. -/
def courseOf (r : Stage4) : CourseRow := r.1.1.1.1.base

/-- Lines 28-29 of data_loader.py for one row: derive the `domain` and
`qs_subject` columns from the course title. -/
def enrichRow (c : CourseRow) : EnrichedCourse :=
  { base := c, domain := map_course_to_domain c.course,
    qs_subject := map_course_to_primary_subject c.course }

/-- Lines 28-29 of data_loader.py: derive the `domain` and `qs_subject`
columns from the course title. -/
def enrich (courses : List CourseRow) : List EnrichedCourse :=
  courses.map enrichRow

/-- Lines 36-41 of data_loader.py: left join with the global rankings on
`university`. -/
def stage1 (courses : List CourseRow) (rankings : List GlobalRankRow) : List Stage1 :=
  leftMerge (enrich courses) rankings (fun c r => c.base.university == r.university)

/-- Lines 44-52 of data_loader.py: left join with the subject rankings on
`university` and `qs_subject` (a record with absent `qs_subject` never
matches). -/
def stage2 (courses : List CourseRow) (rankings : List GlobalRankRow)
    (subjRk : List SubjectRankRow) : List Stage2 :=
  leftMerge (stage1 courses rankings) subjRk
    (fun p s => p.1.base.university == s.university && p.1.qs_subject == some s.subject)

/-- The `domain == "Medicine & Health"` restriction of lines 57-60. -/
def isMedRow (p : Stage2) : Bool := p.1.1.domain == "Medicine & Health"

/-- Lines 55-61 of data_loader.py: split into medicine and non-medicine
rows, left join the medicine rows with the med-school table on
`university`, and concatenate the non-medicine rows back (with the med
columns absent). -/
def stage3 (courses : List CourseRow) (rankings : List GlobalRankRow)
    (subjRk : List SubjectRankRow) (med : List MedRow) : List Stage3 :=
  leftMerge ((stage2 courses rankings subjRk).filter isMedRow) med
    (fun p m => p.1.1.base.university == m.university) ++
  ((stage2 courses rankings subjRk).filter (fun p => !(isMedRow p))).map
    (fun p => (p, (none : Option MedRow)))

/-- `load_master_dataframe` of data_loader.py, restricted to its
row-producing structure: the enrichment of lines 28-29 followed by the four
left joins of lines 36-77 (global rankings on university; subject rankings
on university + qs_subject; med schools on university for the
"Medicine & Health" rows only, with the non-medicine rows concatenated
back; Oxbridge admissions on university + course). -/
def loadMaster (courses : List CourseRow) (rankings : List GlobalRankRow)
    (subjRk : List SubjectRankRow) (med : List MedRow)
    (oxb : List OxbridgeRow) : List Stage4 :=
  leftMerge (stage3 courses rankings subjRk med) oxb
    (fun p o => p.1.1.1.base.university == o.university && p.1.1.1.base.course == o.course_match)

end CourseFinder

namespace CourseFinder

/-! ## app.py -/

/-- `parse_search_keywords` of app.py, the comma-splitting branch:
Python `query.split(",")` (keeps empty fragments). -/
def splitOnComma : List Char → List (List Char)
  | [] => [[]]
  | c :: rest =>
    if c = ',' then [] :: splitOnComma rest
    else
      match splitOnComma rest with
      | [] => [[c]]
      | h :: t => (c :: h) :: t

/-- Accumulator-style scanner behind `splitWs`: `acc` holds the reversed
characters of the token currently being read. -/
def splitWsAux : List Char → List Char → List (List Char)
  | [], acc => if acc.isEmpty then [] else [acc.reverse]
  | c :: rest, acc =>
    if isPySpace c then
      if acc.isEmpty then splitWsAux rest []
      else acc.reverse :: splitWsAux rest []
    else splitWsAux rest (c :: acc)

/-- Python `str.split()` with no argument: split on runs of whitespace,
discarding empty fragments. -/
def splitWs (s : List Char) : List (List Char) := splitWsAux s []

/-- The token loop of `parse_search_keywords`: strip each token, skip empty
tokens, classify "-"-prefixed tokens of length > 1 as excludes (prefix
dropped, re-stripped, lower-cased), all others as includes (lower-cased). -/
def classifyTokens : List (List Char) → List (List Char) × List (List Char)
  | [] => ([], [])
  | tok :: rest =>
    let (i, e) := classifyTokens rest
    let t := pyStrip tok
    if t = [] then (i, e)
    else if isPrefixCL ['-'] t ∧ 1 < t.length then
      (i, pyLower (pyStrip (t.drop 1)) :: e)
    else (pyLower t :: i, e)

/-- `parse_search_keywords` of app.py. -/
def parse_search_keywords (query : String) : List (List Char) × List (List Char) :=
  if pyStrip query.data = [] then ([], [])
  else
    let tokens :=
      if query.data.any (fun c => c == ',') then splitOnComma query.data
      else splitWs query.data
    classifyTokens tokens

/-- The characters to which Python `re` assigns special meaning
(dot, caret, dollar, star, plus, question mark, braces, square brackets,
backslash, pipe, parentheses).  A pattern containing none of them is
matched by `re.search` as a plain substring; a pattern containing them is a
regex construct (or, if malformed, makes `re.compile` raise `re.error`). -/
def regexMetachars : List Char :=
  ['.', '^', '$', '*', '+', '?', Char.ofNat 123, Char.ofNat 125,
   '[', ']', Char.ofNat 92, '|', '(', ')']

/-- The patterns on which this file's regex model is faithful to Python:
literal characters plus the `.` wildcard, with every other metacharacter
excluded.  `apply_keyword_search` hands each keyword to
`pandas.Series.str.contains` unchanged (default `regex=True`), so keywords
using further regex constructs — quantifiers, groups, classes, or invalid
patterns on which `re.compile` raises — lie outside the modeled fragment,
and no theorem below asserts anything about them. -/
def reSupported (pat : List Char) : Bool :=
  pat.all (fun c => c == '.' || !(regexMetachars.contains c))

/-- Regex match of a pattern against a prefix of the text.  Faithful to
Python regex semantics exactly on `reSupported` patterns (literal
characters and the `.` wildcard); on other patterns it is a literal
matcher and does not model Python. -/
def reMatchHere : List Char → List Char → Bool
  | [], _ => true
  | _ :: _, [] => false
  | p :: ps, c :: cs => (p == '.' || p == c) && reMatchHere ps cs

/-- Python `re.search` — does the pattern match at some position of the
text? — for the same `reSupported` fragment. -/
def reSearch (pat : List Char) : List Char → Bool
  | [] => reMatchHere pat []
  | c :: cs => reMatchHere pat (c :: cs) || reSearch pat cs

/-- Per-record body of `apply_keyword_search` of app.py: the record's text
lower-cased (`series.str.lower().fillna("")`), then
`lower.str.contains(kw)` for every include and the negation for every
exclude, all conjoined; all-true when there are no keywords at all.
`str.contains` is modeled by `reSearch`, hence faithfully only for
keywords in the `reSupported` fragment. -/
def rowMatches (text : String) (query : String) : Bool :=
  let (inc, exc) := parse_search_keywords query
  if inc.isEmpty && exc.isEmpty then true
  else
    let lowText := pyLower text.data
    inc.all (fun kw => reSearch kw lowText) &&
    exc.all (fun kw => !reSearch kw lowText)

/-- The three normalized-rank columns of one master record, inputs of
`compute_weighted_score` of app.py. -/
structure RecNorm where
  qs_global_norm : Option ℚ
  the_norm : Option ℚ
  qs_subject_norm : Option ℚ
deriving DecidableEq, Repr

/-- Row-wise `df[["qs_global_norm", "the_norm"]].mean(axis=1, skipna=True)`:
the mean of the present values, NaN if none are present. -/
def meanSkipNA (xs : List (Option ℚ)) : Option ℚ :=
  match xs.filterMap id with
  | [] => none
  | v :: vs => some ((v :: vs).sum / (v :: vs).length)

/-- `compute_weighted_score` of app.py for one record: the three mask cases
`both`, `only_global`, `only_subject`, else NaN, with
`subject_weight = 1 - global_weight`. -/
def compute_weighted_score (r : RecNorm) (globalWeight : ℚ) : Option ℚ :=
  let subjectWeight := 1 - globalWeight
  let globalScores := meanSkipNA [r.qs_global_norm, r.the_norm]
  let subjectScores := r.qs_subject_norm
  match globalScores, subjectScores with
  | some g, some s => some (globalWeight * g + subjectWeight * s)
  | some g, none => some g
  | none, some s => some s
  | none, none => none

/-- The grade columns of one master record used by the sidebar grade
filters of `main` in app.py (pandas float columns, NaN = absent). -/
structure GradeRow where
  alevel_score : Option ℚ
  ib_score : Option ℚ
deriving DecidableEq, Repr

/-- The A-Level mask term of app.py line 547:
`df["alevel_score"].isna() | (df["alevel_score"] <= my_grade_score)`. -/
def alevelPass (r : GradeRow) (threshold : ℚ) : Bool :=
  match r.alevel_score with
  | none => true
  | some v => decide (v ≤ threshold)

/-- The IB mask term of app.py line 550:
`df["ib_score"].isna() | (df["ib_score"] <= my_ib_points)`. -/
def ibPass (r : GradeRow) (threshold : ℚ) : Bool :=
  match r.ib_score with
  | none => true
  | some v => decide (v ≤ threshold)

/-- Restriction of the master record list by the A-Level grade mask. -/
def applyAlevelFilter (rows : List GradeRow) (threshold : ℚ) : List GradeRow :=
  rows.filter (fun r => alevelPass r threshold)

/-- Restriction of the master record list by the IB grade mask. -/
def applyIbFilter (rows : List GradeRow) (threshold : ℚ) : List GradeRow :=
  rows.filter (fun r => ibPass r threshold)

end CourseFinder

namespace CourseFinder

/-! ## Character and digit-run lemmas -/

/-- A decimal digit is unchanged by ASCII lower-casing. -/
lemma lowerChar_of_digit {c : Char} (h : isDigitCh c = true) : lowerChar c = c := by
  have h' : '0'.toNat ≤ c.toNat ∧ c.toNat ≤ '9'.toNat := by simpa [isDigitCh] using h
  have e0 : '0'.toNat = 48 := rfl
  have e9 : '9'.toNat = 57 := rfl
  have eA : 'A'.toNat = 65 := rfl
  have eZ : 'Z'.toNat = 90 := rfl
  unfold lowerChar
  rw [if_neg]
  rw [e0, e9] at h'
  rw [eA, eZ]
  omega

/-- Whitespace characters are not digits. -/
lemma isDigitCh_eq_false_of_space {c : Char} (h : isPySpace c = true) :
    isDigitCh c = false := by
  unfold isPySpace at h
  simp only [Bool.or_eq_true, beq_iff_eq] at h
  rcases h with ((((h | h) | h) | h) | h) | h <;> subst h <;> decide

/-- If the lower-cased string equals a digit-free target, the string itself
is digit-free. -/
lemma noDigit_of_pyLower_eq {s target : List Char}
    (ht : ∀ c ∈ target, isDigitCh c = false) (h : pyLower s = target) :
    ∀ c ∈ s, isDigitCh c = false := by
  intro c hc
  by_contra hd
  have hd' : isDigitCh c = true := by simpa using hd
  have hmem : lowerChar c ∈ target := by
    rw [← h]; exact List.mem_map_of_mem _ hc
  have hfalse := ht _ hmem
  rw [lowerChar_of_digit hd'] at hfalse
  rw [hfalse] at hd'
  cases hd'

/-- A digit-free string has no first digit run. -/
lemma firstDigitRun_eq_none_of_noDigit {l : List Char}
    (h : ∀ c ∈ l, isDigitCh c = false) : firstDigitRun l = none := by
  induction l with
  | nil => rfl
  | cons c cs ih =>
    have hc := h c (List.mem_cons_self c cs)
    simp [firstDigitRun, hc, ih (fun x hx => h x (List.mem_cons_of_mem _ hx))]

/-- `takeWhile` never reaches a suffix on which the predicate is everywhere
false. -/
lemma takeWhile_append_of_neg {p : Char → Bool} {l1 l2 : List Char}
    (h : ∀ c ∈ l2, p c = false) : (l1 ++ l2).takeWhile p = l1.takeWhile p := by
  induction l1 with
  | nil =>
    cases l2 with
    | nil => rfl
    | cons c cs => simp [List.takeWhile_cons, h c (List.mem_cons_self c cs)]
  | cons a l ih =>
    by_cases hp : p a
    · simp [List.takeWhile_cons, hp, ih]
    · simp [List.takeWhile_cons, hp]

/-- The first digit run skips over a digit-free prefix. -/
lemma firstDigitRun_append_left {l1 l2 : List Char}
    (h : ∀ c ∈ l1, isDigitCh c = false) :
    firstDigitRun (l1 ++ l2) = firstDigitRun l2 := by
  induction l1 with
  | nil => rfl
  | cons c cs ih =>
    have hc := h c (List.mem_cons_self c cs)
    simp [firstDigitRun, hc, ih (fun x hx => h x (List.mem_cons_of_mem _ hx))]

/-- The first digit run is unchanged by a digit-free suffix. -/
lemma firstDigitRun_append_right {l1 l2 : List Char}
    (h : ∀ c ∈ l2, isDigitCh c = false) :
    firstDigitRun (l1 ++ l2) = firstDigitRun l1 := by
  induction l1 with
  | nil =>
    rw [List.nil_append, firstDigitRun_eq_none_of_noDigit h]
    rfl
  | cons c cs ih =>
    by_cases hd : isDigitCh c
    · simp [firstDigitRun, hd, takeWhile_append_of_neg h]
    · simp [firstDigitRun, hd, ih]

/-- Stripping whitespace never changes the first digit run. -/
lemma firstDigitRun_pyStrip (s : List Char) :
    firstDigitRun (pyStrip s) = firstDigitRun s := by
  unfold pyStrip
  have hsplit : s.takeWhile isPySpace ++ s.dropWhile isPySpace = s :=
    List.takeWhile_append_dropWhile isPySpace s
  have h1 : ∀ c ∈ s.takeWhile isPySpace, isDigitCh c = false := fun c hc =>
    isDigitCh_eq_false_of_space (List.mem_takeWhile_imp hc)
  have key : (s.dropWhile isPySpace).reverse.takeWhile isPySpace ++
      (s.dropWhile isPySpace).reverse.dropWhile isPySpace = (s.dropWhile isPySpace).reverse :=
    List.takeWhile_append_dropWhile isPySpace (s.dropWhile isPySpace).reverse
  have hm2 : ((s.dropWhile isPySpace).reverse.dropWhile isPySpace).reverse ++
      ((s.dropWhile isPySpace).reverse.takeWhile isPySpace).reverse = s.dropWhile isPySpace := by
    have := congrArg List.reverse key
    simpa only [List.reverse_append, List.reverse_reverse] using this
  have h2 : ∀ c ∈ ((s.dropWhile isPySpace).reverse.takeWhile isPySpace).reverse,
      isDigitCh c = false := by
    intro c hc
    rw [List.mem_reverse] at hc
    exact isDigitCh_eq_false_of_space (List.mem_takeWhile_imp hc)
  calc firstDigitRun ((s.dropWhile isPySpace).reverse.dropWhile isPySpace).reverse
      = firstDigitRun (((s.dropWhile isPySpace).reverse.dropWhile isPySpace).reverse ++
          ((s.dropWhile isPySpace).reverse.takeWhile isPySpace).reverse) :=
        (firstDigitRun_append_right h2).symm
    _ = firstDigitRun (s.dropWhile isPySpace) := by rw [hm2]
    _ = firstDigitRun (s.takeWhile isPySpace ++ s.dropWhile isPySpace) :=
        (firstDigitRun_append_left h1).symm
    _ = firstDigitRun s := by rw [hsplit]

/-- Stripping whitespace never changes the extracted first number. -/
lemma firstDigits_pyStrip (s : List Char) : firstDigits (pyStrip s) = firstDigits s := by
  simp [firstDigits, firstDigitRun_pyStrip]

/-- Characterization of `parse_ib_points`: the first digit run of the raw
input, filtered through the `[20, 45]` sanity bound.  (The "nan" / "not
accepted" / empty guard is subsumed: those strings contain no digit.) -/
lemma parse_ib_points_eq (s : String) :
    parse_ib_points s =
      (firstDigits s.data).bind (fun v => if 20 ≤ v ∧ v ≤ 45 then some v else none) := by
  unfold parse_ib_points
  by_cases hg : pyLower (pyStrip s.data) = [] ∨ pyLower (pyStrip s.data) = "nan".data ∨
      pyLower (pyStrip s.data) = "not accepted".data
  · rw [if_pos hg]
    have hnod : ∀ c ∈ pyStrip s.data, isDigitCh c = false := by
      rcases hg with h | h | h
      · rw [pyLower, List.map_eq_nil_iff] at h
        rw [h]; intro c hc; cases hc
      · exact noDigit_of_pyLower_eq (by decide) h
      · exact noDigit_of_pyLower_eq (by decide) h
    have hrun : firstDigitRun s.data = none := by
      rw [← firstDigitRun_pyStrip]
      exact firstDigitRun_eq_none_of_noDigit hnod
    have : firstDigits s.data = none := by simp [firstDigits, hrun]
    rw [this]
    rfl
  · rw [if_neg hg, firstDigits_pyStrip]
    cases h : firstDigits s.data <;> simp

end CourseFinder

namespace CourseFinder

/-! ## Rank-normalization lemmas -/

/-- A column with no present value normalizes to all-absent. -/
lemma normalizeColumn_empty {col : List (Option ℚ)} (h : col.filterMap id = []) :
    ∀ x ∈ normalizeColumn col, x = none := by
  intro x hx
  unfold normalizeColumn at hx
  rw [h] at hx
  rcases List.mem_map.mp hx with ⟨a, _, rfl⟩
  rfl

/-- A column whose maximal present value is at most 1 normalizes to
all-absent. -/
lemma normalizeColumn_degenerate {col : List (Option ℚ)} {m : ℚ}
    (hmax : listMaxQ (col.filterMap id) = some m) (hm : m ≤ 1) :
    ∀ x ∈ normalizeColumn col, x = none := by
  intro x hx
  unfold normalizeColumn at hx
  rw [hmax] at hx
  rcases List.mem_map.mp hx with ⟨o, _, rfl⟩
  cases o with
  | none => rfl
  | some r => simp [not_lt.mpr hm]

/-- Entry-wise description of `normalizeColumn` when the maximal present
value exceeds 1: present values go through the linear rescaling formula and
absent values stay absent. -/
lemma normalizeColumn_get {col : List (Option ℚ)} {m : ℚ}
    (hmax : listMaxQ (col.filterMap id) = some m) (hm : 1 < m) (i : Nat) :
    (normalizeColumn col).get? i =
      (col.get? i).map (fun o => o.map (fun r => 100 * (1 - (r - 1) / (m - 1)))) := by
  unfold normalizeColumn
  rw [hmax, List.get?_map]
  
  cases h : col.get? i with
  | none => rfl
  | some o =>
    cases o with
    | none => rfl
    | some r => simp [hm]

end CourseFinder

namespace CourseFinder

/-! ## Claim theorems: rank normalization and IB parsing -/

/-- C1: per rank column, when the maximal present rank exceeds 1,
`normalizeColumn` sends each present rank `r` to
`100 * (1 - (r - 1) / (max_rank - 1))` (exactly 100 at `r = 1` and 0 at
`r = max_rank`) and each absent rank to absent; when the column has no
present value or the maximal present rank is at most 1, every entry of the
normalized column is absent. -/
theorem claim_C1_normalize_formula :
    ∀ col : List (Option ℚ),
      ((col.filterMap id = [] ∨ ∃ m, listMaxQ (col.filterMap id) = some m ∧ m ≤ 1) →
        ∀ x ∈ normalizeColumn col, x = none)
      ∧ (∀ m, listMaxQ (col.filterMap id) = some m → 1 < m →
          (∀ i, (normalizeColumn col).get? i =
            (col.get? i).map (fun o => o.map (fun r => 100 * (1 - (r - 1) / (m - 1)))))
          ∧ 100 * (1 - ((1 : ℚ) - 1) / (m - 1)) = 100
          ∧ 100 * (1 - (m - 1) / (m - 1)) = 0) := by
  intro col
  constructor
  · rintro (h | ⟨m, hm, hle⟩)
    · exact normalizeColumn_empty h
    · exact normalizeColumn_degenerate hm hle
  · intro m hm h1
    refine ⟨normalizeColumn_get hm h1, by norm_num, ?_⟩
    have hne : m - 1 ≠ 0 := sub_ne_zero.mpr (ne_of_gt h1)
    rw [div_self hne]
    ring

/-- Witness for C1 at the concrete column `[some 1, none, some 3]`
(maximum 3) and at the degenerate column `[some 1, none, none]`. -/
theorem claim_C1_normalize_formula_witness :
    ((normalizeColumn [some 1, none, some 3]).get? 2 =
      (([some 1, none, some 3] : List (Option ℚ)).get? 2).map
        (fun o => o.map (fun r => 100 * (1 - (r - 1) / ((3 : ℚ) - 1)))))
    ∧ (∀ x ∈ normalizeColumn [some (1 : ℚ), none, none], x = none) :=
  ⟨((claim_C1_normalize_formula [some 1, none, some 3]).2 3 (by decide) (by decide)).1 2,
   (claim_C1_normalize_formula [some 1, none, none]).1 (Or.inr ⟨1, by decide, by decide⟩)⟩

/-- C2 counterexample: the column `[some 5]` has exactly one present value,
yet `normalizeColumn` maps that record to `some 0`, not to absent (the code
only degenerates when `max_rank ≤ 1`; here `max_rank = 5 > 1` and the single
value is both minimum and maximum, so the formula yields 0). -/
theorem claim_C2_single_value_counterexample :
    ([some (5 : ℚ)] : List (Option ℚ)).filterMap id = [5]
    ∧ normalizeColumn [some 5] = [some 0] := by
  constructor
  · decide
  · norm_num [normalizeColumn, listMaxQ, List.filterMap_cons, max_def]

/-- C2 amended: a column whose unique present value is `v` normalizes that
record to absent when `v ≤ 1`; when `v > 1` the record is mapped to 0 (the
single value is its own maximum, so the rescaling formula gives 0, not
absent). -/
theorem claim_C2_single_value_amended :
    ∀ (col : List (Option ℚ)) (v : ℚ), col.filterMap id = [v] →
      (v ≤ 1 → ∀ x ∈ normalizeColumn col, x = none)
      ∧ (1 < v → ∀ i, col.get? i = some (some v) →
          (normalizeColumn col).get? i = some (some 0)) := by
  intro col v hfm
  have hmax : listMaxQ (col.filterMap id) = some v := by rw [hfm]; rfl
  constructor
  · intro hv
    exact normalizeColumn_degenerate hmax hv
  · intro hv i hi
    rw [normalizeColumn_get hmax hv i, hi]
    have hne : v - 1 ≠ 0 := sub_ne_zero.mpr (ne_of_gt hv)
    simp [div_self hne]

/-- Witness for the amended C2 at the concrete column `[none, some 5]`. -/
theorem claim_C2_single_value_amended_witness :
    (normalizeColumn [none, some 5]).get? 1 = some (some 0) :=
  (claim_C2_single_value_amended [none, some 5] 5 (by decide)).2 (by decide) 1 (by decide)

/-- C6: `parse_ib_points` extracts the first run of decimal digits and
returns it exactly when it lies in `[20, 45]`, returning absent otherwise;
with the four example values of the specification. -/
theorem claim_C6_parse_ib :
    (∀ s : String, parse_ib_points s =
      (firstDigits s.data).bind (fun v => if 20 ≤ v ∧ v ≤ 45 then some v else none))
    ∧ parse_ib_points "36 Points" = some 36
    ∧ parse_ib_points "38-40 points" = some 38
    ∧ parse_ib_points "36 Points (666)" = some 36
    ∧ parse_ib_points "15 points" = none :=
  ⟨parse_ib_points_eq, by decide, by decide, by decide, by decide⟩

/-- C3 counterexample: the master `ib_score` is the `ib_points_numeric`
column (first digit run, no sanity bound), not `parse_ib_points` of the raw
text: on raw text "15 points" the master column holds 15 while
`parse_ib_points` is absent. -/
theorem claim_C3_ib_score_counterexample :
    ibScore (some "15 points") = some 15 ∧ parse_ib_points "15 points" = none := by
  constructor
  · decide
  · decide

/-- C3 amended: for every course record, `ib_score` equals the first run of
decimal digits of the raw IB text (absent when the text is absent or has no
digits); it agrees with `parse_ib_points` exactly on texts whose first digit
run lies in `[20, 45]` (or has none), and on an out-of-range first digit run
`parse_ib_points` is absent while `ib_score` keeps the out-of-range value. -/
theorem claim_C3_ib_score_amended :
    (∀ raw : Option String, ibScore raw = raw.bind (fun s => firstDigits s.data))
    ∧ (∀ (s : String) (v : Nat), firstDigits s.data = some v → 20 ≤ v → v ≤ 45 →
        parse_ib_points s = some v ∧ ibScore (some s) = some v)
    ∧ (∀ (s : String) (v : Nat), firstDigits s.data = some v → (v < 20 ∨ 45 < v) →
        parse_ib_points s = none ∧ ibScore (some s) = some v)
    ∧ (∀ s : String, firstDigits s.data = none →
        parse_ib_points s = none ∧ ibScore (some s) = none) := by
  refine ⟨fun raw => rfl, ?_, ?_, ?_⟩
  · intro s v hv h1 h2
    constructor
    · rw [parse_ib_points_eq, hv]
      simp [h1, h2]
    · simp [ibScore, hv]
  · intro s v hv hout
    constructor
    · rw [parse_ib_points_eq, hv]
      have : ¬ (20 ≤ v ∧ v ≤ 45) := by omega
      simp [this]
    · simp [ibScore, hv]
  · intro s hv
    constructor
    · rw [parse_ib_points_eq, hv]
      rfl
    · simp [ibScore, hv]

/-- Witness for the amended C3 at the raw texts "15 points" (out of range)
and "36 Points" (in range). -/
theorem claim_C3_ib_score_amended_witness :
    (parse_ib_points "15 points" = none ∧ ibScore (some "15 points") = some 15)
    ∧ (parse_ib_points "36 Points" = some 36 ∧ ibScore (some "36 Points") = some 36) :=
  ⟨claim_C3_ib_score_amended.2.2.1 "15 points" 15 (by decide) (Or.inl (by decide)),
   claim_C3_ib_score_amended.2.1 "36 Points" 36 (by decide) (by decide) (by decide)⟩

end CourseFinder

namespace CourseFinder

/-! ## Claim theorems: composite score and grade filters -/

/-- The global component as claim C7 describes it: the arithmetic mean of
whichever of `qs_global_norm` and `the_norm` are present, absent when both
are absent.  Stated separately so the code's row-wise `mean(skipna=True)`
can be proved equal to it. -/
def globalComponentSpec (r : RecNorm) : Option ℚ :=
  match r.qs_global_norm, r.the_norm with
  | some a, some b => some ((a + b) / 2)
  | some a, none => some a
  | none, some b => some b
  | none, none => none

/-- The pandas row-wise skip-NA mean of the two global columns is the
claim's arithmetic mean of the present values. -/
lemma meanSkipNA_pair (r : RecNorm) :
    meanSkipNA [r.qs_global_norm, r.the_norm] = globalComponentSpec r := by
  rcases r with ⟨g, t, s⟩
  cases g <;> cases t <;>
    simp [meanSkipNA, globalComponentSpec, List.filterMap]

/-- C7: for every record and weight `w ∈ [0, 1]`, the composite score is
`w * G + (1 - w) * S` when both components are present (`G` the mean of the
present global norms, `S` the subject norm), `G` when only the global
component is present, `S` when only the subject component is present, and
absent exactly when all three normalized columns are absent. -/
theorem claim_C7_weighted_score :
    ∀ (r : RecNorm) (w : ℚ), 0 ≤ w → w ≤ 1 →
      (∀ gv sv, globalComponentSpec r = some gv → r.qs_subject_norm = some sv →
        compute_weighted_score r w = some (w * gv + (1 - w) * sv))
      ∧ (∀ gv, globalComponentSpec r = some gv → r.qs_subject_norm = none →
        compute_weighted_score r w = some gv)
      ∧ (∀ sv, globalComponentSpec r = none → r.qs_subject_norm = some sv →
        compute_weighted_score r w = some sv)
      ∧ (compute_weighted_score r w = none ↔
          r.qs_global_norm = none ∧ r.the_norm = none ∧ r.qs_subject_norm = none) := by
  intro r w h0 h1
  have hmean := meanSkipNA_pair r
  refine ⟨?_, ?_, ?_, ?_⟩
  · intro gv sv hg hs
    unfold compute_weighted_score
    rw [hmean, hg, hs]
  · intro gv hg hs
    unfold compute_weighted_score
    rw [hmean, hg, hs]
  · intro sv hg hs
    unfold compute_weighted_score
    rw [hmean, hg, hs]
  · unfold compute_weighted_score
    rw [hmean]
    rcases r with ⟨g, t, s⟩
    cases g <;> cases t <;> cases s <;> simp [globalComponentSpec]

/-- Witness for C7 at a concrete record with all three columns present and
weight 1/2. -/
theorem claim_C7_weighted_score_witness :
    compute_weighted_score ⟨some 80, some 60, some 50⟩ (1/2) =
      some ((1/2) * ((80 + 60) / 2) + (1 - 1/2) * 50) :=
  (claim_C7_weighted_score ⟨some 80, some 60, some 50⟩ (1/2)
      (by norm_num) (by norm_num)).1 ((80 + 60) / 2) 50 rfl rfl

/-- The A-Level mask term holds exactly on absent or at-most-threshold
scores. -/
lemma alevelPass_iff (r : GradeRow) (t : ℚ) :
    alevelPass r t = true ↔
      (r.alevel_score = none ∨ ∃ v, r.alevel_score = some v ∧ v ≤ t) := by
  unfold alevelPass
  cases h : r.alevel_score with
  | none => simp
  | some v => simp

/-- The IB mask term holds exactly on absent or at-most-threshold scores. -/
lemma ibPass_iff (r : GradeRow) (t : ℚ) :
    ibPass r t = true ↔
      (r.ib_score = none ∨ ∃ v, r.ib_score = some v ∧ v ≤ t) := by
  unfold ibPass
  cases h : r.ib_score with
  | none => simp
  | some v => simp

/-- C10: for every threshold, the A-Level (resp. IB) grade filter keeps
exactly the records whose score is absent or at most the threshold; records
with an absent score always pass. -/
theorem claim_C10_grade_filters :
    (∀ (rows : List GradeRow) (t : ℚ) (r : GradeRow),
      r ∈ applyAlevelFilter rows t ↔
        r ∈ rows ∧ (r.alevel_score = none ∨ ∃ v, r.alevel_score = some v ∧ v ≤ t))
    ∧ (∀ (rows : List GradeRow) (t : ℚ) (r : GradeRow),
      r ∈ applyIbFilter rows t ↔
        r ∈ rows ∧ (r.ib_score = none ∨ ∃ v, r.ib_score = some v ∧ v ≤ t))
    ∧ (∀ (rows : List GradeRow) (t : ℚ) (r : GradeRow), r ∈ rows →
        r.alevel_score = none → r ∈ applyAlevelFilter rows t)
    ∧ (∀ (rows : List GradeRow) (t : ℚ) (r : GradeRow), r ∈ rows →
        r.ib_score = none → r ∈ applyIbFilter rows t) := by
  refine ⟨?_, ?_, ?_, ?_⟩
  · intro rows t r
    rw [applyAlevelFilter, List.mem_filter, alevelPass_iff]
  · intro rows t r
    rw [applyIbFilter, List.mem_filter, ibPass_iff]
  · intro rows t r hr hnone
    rw [applyAlevelFilter, List.mem_filter]
    exact ⟨hr, by simp [alevelPass, hnone]⟩
  · intro rows t r hr hnone
    rw [applyIbFilter, List.mem_filter]
    exact ⟨hr, by simp [ibPass, hnone]⟩

/-- Witness for C10: a record with an absent A-Level score passes the
filter at threshold 0. -/
theorem claim_C10_grade_filters_witness :
    (⟨none, none⟩ : GradeRow) ∈ applyAlevelFilter [⟨none, none⟩] 0 :=
  claim_C10_grade_filters.2.2.1 [⟨none, none⟩] 0 ⟨none, none⟩
    (List.mem_singleton.mpr rfl) rfl

end CourseFinder

namespace CourseFinder

/-! ## Claim theorems: subject classification -/

/-- If the head rule of a rule table matches, the classification starts
with that rule's label. -/
lemma filter_map_head {α β : Type} (l : List (α × β)) (p : α × β → Bool) (r : α × β)
    (hl : l.head? = some r) (hp : p r = true) :
    ∃ rest, (l.filter p).map Prod.fst = r.1 :: rest := by
  cases l with
  | nil => cases hl
  | cons a as =>
    have : a = r := by simpa using hl
    subst this
    rw [List.filter_cons_of_pos hp, List.map_cons]
    exact ⟨_, rfl⟩

/-- C4 counterexample: the title "Biochemistry" contains both the keyword
"biochemistry" (owned only by the "Biological" rule) and the generic keyword
"chemistry" (owned only by the "Chemistry" rule), yet the classification
lists "Chemistry" before "Biological" — the subject matched via the
"biochemistry" keyword does not precede the one matched via generic
"chemistry", because the "Chemistry" rule precedes the "Biological" rule in
`SUBJECT_RULES`. -/
theorem claim_C4_specific_precedence_counterexample :
    containsSub "biochemistry".data (pyLower "Biochemistry".data) = true
    ∧ containsSub "chemistry".data (pyLower "Biochemistry".data) = true
    ∧ (SUBJECT_RULES.filter (fun r => r.2.contains "biochemistry")).map Prod.fst
        = ["Biological"]
    ∧ (SUBJECT_RULES.filter (fun r => r.2.contains "chemistry")).map Prod.fst
        = ["Chemistry"]
    ∧ map_course_to_subjects "Biochemistry" = ["Chemistry", "Biological"] :=
  ⟨by decide, by decide, by decide, by decide, by decide⟩

/-- C4 amended: matches are listed in rule-table order.  Any title
containing "chemical engineering" is classified with
"Engineering - Chemical" first (in particular before any generic
"Engineering & Technology" match), and concretely
`classify("Chemical Engineering BEng")` starts with it; but the
"biochemistry" keyword belongs to the "Biological" rule, which comes after
the "Chemistry" rule, so a title containing "biochemistry" (hence also its
substring "chemistry") lists "Chemistry" before "Biological". -/
theorem claim_C4_specific_precedence_amended :
    (map_course_to_subjects "Chemical Engineering BEng" =
      ["Engineering - Chemical", "Chemistry", "Engineering & Technology"])
    ∧ (∀ t : String, containsSub "chemical engineering".data (pyLower t.data) = true →
        ∃ rest, map_course_to_subjects t = "Engineering - Chemical" :: rest)
    ∧ (∀ t : String, containsSub "biochemistry".data (pyLower t.data) = true →
        containsSub "chemistry".data (pyLower t.data) = true →
        List.Sublist ["Chemistry", "Biological"] (map_course_to_subjects t)) := by
  refine ⟨by decide, ?_, ?_⟩
  · intro t h
    have hp : ruleMatches (pyLower t.data)
        ("Engineering - Chemical", ["chemical engineering"]) = true := by
      simp [ruleMatches, h]
    unfold map_course_to_subjects
    exact filter_map_head SUBJECT_RULES _ _ rfl hp
  · intro t h1 h2
    have hpc : ruleMatches (pyLower t.data) ("Chemistry", ["chemistry", "chemical"]) = true := by
      simp [ruleMatches, h2]
    have hpb : ruleMatches (pyLower t.data)
        ("Biological", ["biology", "biological", "biochemistry", "biomedical", "bioscience",
          "genetics", "microbiology", "neuroscience", "zoology", "ecology",
          "molecular biology", "cell biology", "biotechnology", "animal",
          "plant science"]) = true := by
      simp [ruleMatches, h1]
    have hsub : List.Sublist
        [("Chemistry", ["chemistry", "chemical"]),
         ("Biological", ["biology", "biological", "biochemistry", "biomedical", "bioscience",
           "genetics", "microbiology", "neuroscience", "zoology", "ecology",
           "molecular biology", "cell biology", "biotechnology", "animal",
           "plant science"])] SUBJECT_RULES := by decide
    have hfil := List.Sublist.filter (ruleMatches (pyLower t.data)) hsub
    rw [List.filter_cons_of_pos hpc, List.filter_cons_of_pos hpb, List.filter_nil] at hfil
    have hmap := List.Sublist.map Prod.fst hfil
    unfold map_course_to_subjects
    simpa using hmap

/-- Witness for the amended C4 at the two concrete titles of the claim. -/
theorem claim_C4_specific_precedence_amended_witness :
    (∃ rest, map_course_to_subjects "Chemical Engineering BEng" =
      "Engineering - Chemical" :: rest)
    ∧ List.Sublist ["Chemistry", "Biological"] (map_course_to_subjects "Biochemistry") :=
  ⟨claim_C4_specific_precedence_amended.2.1 "Chemical Engineering BEng" (by decide),
   claim_C4_specific_precedence_amended.2.2 "Biochemistry" (by decide) (by decide)⟩

end CourseFinder

namespace CourseFinder

/-! ## Claim theorems: keyword search -/

/-- A pattern matches the empty text at the start iff it is empty. -/
lemma isPrefixCL_nil (pat : List Char) : isPrefixCL pat [] = pat.isEmpty := by
  cases pat <;> rfl

/-- For a pattern without the `.` metacharacter, anchored regex matching is
prefix matching. -/
lemma reMatchHere_eq_isPrefix {pat : List Char} (h : ∀ c ∈ pat, c ≠ '.') :
    ∀ text, reMatchHere pat text = isPrefixCL pat text := by
  induction pat with
  | nil => intro text; cases text <;> rfl
  | cons p ps ih =>
    intro text
    cases text with
    | nil => rfl
    | cons c cs =>
      have hp : p ≠ '.' := h p (List.mem_cons_self _ _)
      have hps : ∀ x ∈ ps, x ≠ '.' := fun x hx => h x (List.mem_cons_of_mem _ hx)
      have hpd : (p == '.') = false := by simpa using hp
      simp [reMatchHere, isPrefixCL, hpd, ih hps]

/-- For a pattern without the `.` metacharacter, regex search is substring
containment. -/
lemma reSearch_eq_containsSub {pat : List Char} (h : ∀ c ∈ pat, c ≠ '.') :
    ∀ text, reSearch pat text = containsSub pat text := by
  intro text
  induction text with
  | nil => simp [reSearch, containsSub, reMatchHere_eq_isPrefix h, isPrefixCL_nil]
  | cons c cs ih => simp [reSearch, containsSub, reMatchHere_eq_isPrefix h, ih]

/-- A pattern free of every regex metacharacter is in particular free of
the `.` wildcard. -/
lemma no_dot_of_metachar_free {pat : List Char}
    (h : ∀ c ∈ pat, ¬ c ∈ regexMetachars) : ∀ c ∈ pat, c ≠ '.' :=
  fun c hc hd => h c hc (by rw [hd]; decide)

/-- C8 counterexample: the query "b.sc" yields the single include-keyword
"b.sc", which pandas `str.contains` interprets as a regular expression
(default `regex=True`): the record text "basc" matches although "b.sc" is
not a substring of it.  The keyword lies in the `reSupported` fragment on
which the model is faithful to Python. -/
theorem claim_C8_keyword_search_counterexample :
    parse_search_keywords "b.sc" = (["b.sc".data], [])
    ∧ reSupported "b.sc".data = true
    ∧ rowMatches "basc" "b.sc" = true
    ∧ containsSub "b.sc".data (pyLower "basc".data) = false :=
  ⟨by decide, by decide, by decide, by decide⟩

/-- C8 amended: tokenization as claimed (comma split when a comma is
present, else whitespace split; "-"-prefixed tokens of length > 1 become
lower-cased excludes, the rest lower-cased includes); for keywords inside
the modeled literal-plus-`.` regex fragment, a record matches iff its
lower-cased text matches every include-keyword and no exclude-keyword as a
regular expression (pandas `str.contains` default regex=True); regex
matching coincides with substring containment for keywords free of every
regex metacharacter; a query yielding no tokens matches every record.
Keywords using regex constructs outside the fragment (quantifiers, groups,
classes, or patterns on which `re.compile` raises) are not covered by any
conjunct. -/
theorem claim_C8_keyword_search_amended :
    (parse_search_keywords "comp, phys, -philo" = (["comp".data, "phys".data], ["philo".data]))
    ∧ (parse_search_keywords "comp phys -philo" = (["comp".data, "phys".data], ["philo".data]))
    ∧ (∀ (text q : String) (inc exc : List (List Char)),
        parse_search_keywords q = (inc, exc) → ¬(inc = [] ∧ exc = []) →
        (∀ kw ∈ inc, reSupported kw = true) →
        (∀ kw ∈ exc, reSupported kw = true) →
        (rowMatches text q = true ↔
          ((∀ kw ∈ inc, reSearch kw (pyLower text.data) = true) ∧
           (∀ kw ∈ exc, reSearch kw (pyLower text.data) = false))))
    ∧ (∀ (text q : String), parse_search_keywords q = ([], []) → rowMatches text q = true)
    ∧ (∀ (kw text : List Char), (∀ c ∈ kw, ¬ c ∈ regexMetachars) →
        reSearch kw text = containsSub kw text) := by
  refine ⟨by decide, by decide, ?_, ?_,
    fun kw text h => reSearch_eq_containsSub (no_dot_of_metachar_free h) text⟩
  · intro text q inc exc hpq hne hincS hexcS
    unfold rowMatches
    rw [hpq]
    have hb : (inc.isEmpty && exc.isEmpty) = false := by
      cases inc <;> cases exc <;> simp_all
    simp [hb, List.all_eq_true]
  · intro text q hpq
    unfold rowMatches
    rw [hpq]
    rfl

/-- Witness for the amended C8 at the query "comp, sci, -philo" (all
keywords metacharacter-free, hence in the supported fragment) over the
record text "Computer Science BSc". -/
theorem claim_C8_keyword_search_amended_witness :
    rowMatches "Computer Science BSc" "comp, sci, -philo" = true ↔
      ((∀ kw ∈ ["comp".data, "sci".data],
          reSearch kw (pyLower "Computer Science BSc".data) = true)
       ∧ (∀ kw ∈ ["philo".data],
          reSearch kw (pyLower "Computer Science BSc".data) = false)) :=
  claim_C8_keyword_search_amended.2.2.1 "Computer Science BSc" "comp, sci, -philo"
    ["comp".data, "sci".data] ["philo".data] (by decide) (by simp)
    (by decide) (by decide)

end CourseFinder

namespace CourseFinder

/-! ## Claim theorems: join cardinality -/

/-- A pandas left merge never has fewer rows than its left table. -/
lemma leftMerge_length_le {α β : Type} (ls : List α) (rs : List β) (m : α → β → Bool) :
    ls.length ≤ (leftMerge ls rs m).length := by
  induction ls with
  | nil => simp [leftMerge]
  | cons a as ih =>
    unfold leftMerge
    rw [List.length_append]
    have h1 : 1 ≤ (match rs.filter (m a) with
        | [] => [(a, (none : Option β))]
        | b :: bs => (b :: bs).map (fun x => (a, some x))).length := by
      cases h : rs.filter (m a) <;> simp
    have h2 : (a :: as).length = as.length + 1 := List.length_cons a as
    omega

/-- A pandas left merge preserves the left cardinality exactly when every
left row matches at most one right row. -/
lemma leftMerge_length_eq {α β : Type} (ls : List α) (rs : List β) (m : α → β → Bool)
    (h : ∀ a ∈ ls, (rs.filter (m a)).length ≤ 1) :
    (leftMerge ls rs m).length = ls.length := by
  induction ls with
  | nil => rfl
  | cons a as ih =>
    unfold leftMerge
    rw [List.length_append, ih (fun x hx => h x (List.mem_cons_of_mem _ hx))]
    have ha := h a (List.mem_cons_self _ _)
    cases hf : rs.filter (m a) with
    | nil => simp [Nat.add_comm]
    | cons b bs =>
      rw [hf] at ha
      simp only [List.length_cons, List.length_map] at ha ⊢
      omega

/-- Every left row survives a pandas left merge, paired with some optional
right row. -/
lemma leftMerge_mem {α β : Type} (rs : List β) (m : α → β → Bool)
    {ls : List α} {a : α} (ha : a ∈ ls) :
    ∃ ob, (a, ob) ∈ leftMerge ls rs m := by
  induction ls with
  | nil => cases ha
  | cons x xs ih =>
    rcases List.mem_cons.mp ha with rfl | hmem
    · cases hf : rs.filter (m a) with
      | nil =>
        refine ⟨none, ?_⟩
        unfold leftMerge
        rw [hf]
        exact List.mem_append_left _ (List.mem_singleton.mpr rfl)
      | cons b bs =>
        refine ⟨some b, ?_⟩
        unfold leftMerge
        rw [hf]
        exact List.mem_append_left _ (by simp)
    · rcases ih hmem with ⟨ob, hob⟩
      exact ⟨ob, by unfold leftMerge; exact List.mem_append_right _ hob⟩

/-- A left row with no matching right row survives paired with `none`: its
foreign columns are absent. -/
lemma leftMerge_nomatch {α β : Type} {ls : List α} {rs : List β} {m : α → β → Bool} {a : α}
    (ha : a ∈ ls) (h : rs.filter (m a) = []) :
    (a, (none : Option β)) ∈ leftMerge ls rs m := by
  induction ls with
  | nil => cases ha
  | cons x xs ih =>
    rcases List.mem_cons.mp ha with rfl | hmem
    · unfold leftMerge
      rw [h]
      exact List.mem_append_left _ (List.mem_singleton.mpr rfl)
    · unfold leftMerge
      exact List.mem_append_right _ (ih hmem)

/-- Splitting a list by a Boolean predicate preserves total length. -/
lemma length_filter_split {α : Type} (l : List α) (p : α → Bool) :
    (l.filter p).length + (l.filter (fun a => !p a)).length = l.length := by
  induction l with
  | nil => rfl
  | cons a as ih => by_cases h : p a <;> simp [h, List.filter_cons] <;> omega

/-- The master set never loses a course row, whatever the secondary
tables. -/
lemma loadMaster_length_ge (courses : List CourseRow) (rankings : List GlobalRankRow)
    (subjRk : List SubjectRankRow) (med : List MedRow) (oxb : List OxbridgeRow) :
    courses.length ≤ (loadMaster courses rankings subjRk med oxb).length := by
  have h1 : courses.length = (enrich courses).length := (List.length_map _ _).symm
  have h2 : (enrich courses).length ≤ (stage1 courses rankings).length :=
    leftMerge_length_le _ _ _
  have h3 : (stage1 courses rankings).length ≤ (stage2 courses rankings subjRk).length :=
    leftMerge_length_le _ _ _
  have h4 : (stage2 courses rankings subjRk).length ≤
      (stage3 courses rankings subjRk med).length := by
    unfold stage3
    rw [List.length_append, List.length_map]
    have hle := leftMerge_length_le ((stage2 courses rankings subjRk).filter isMedRow) med
      (fun p m => p.1.1.base.university == m.university)
    have hsplit := length_filter_split (stage2 courses rankings subjRk) isMedRow
    omega
  have h5 : (stage3 courses rankings subjRk med).length ≤
      (loadMaster courses rankings subjRk med oxb).length :=
    leftMerge_length_le _ _ _
  omega

/-- When every secondary table has at most one row per join key, the master
set has exactly one row per course row. -/
lemma loadMaster_length_eq (courses : List CourseRow) (rankings : List GlobalRankRow)
    (subjRk : List SubjectRankRow) (med : List MedRow) (oxb : List OxbridgeRow)
    (h1 : ∀ u : String, (rankings.filter (fun r => u == r.university)).length ≤ 1)
    (h2 : ∀ (u : String) (sub : Option String),
      (subjRk.filter (fun s => u == s.university && sub == some s.subject)).length ≤ 1)
    (h3 : ∀ u : String, (med.filter (fun mr => u == mr.university)).length ≤ 1)
    (h4 : ∀ u c : String,
      (oxb.filter (fun o => u == o.university && c == o.course_match)).length ≤ 1) :
    (loadMaster courses rankings subjRk med oxb).length = courses.length := by
  have e1 : (stage1 courses rankings).length = (enrich courses).length :=
    leftMerge_length_eq _ _ _ (fun a _ => h1 a.base.university)
  have e2 : (stage2 courses rankings subjRk).length = (stage1 courses rankings).length :=
    leftMerge_length_eq _ _ _ (fun a _ => h2 a.1.base.university a.1.qs_subject)
  have e3 : (stage3 courses rankings subjRk med).length =
      (stage2 courses rankings subjRk).length := by
    unfold stage3
    rw [List.length_append, List.length_map,
      leftMerge_length_eq _ _ _ (fun a _ => h3 a.1.1.base.university)]
    exact length_filter_split (stage2 courses rankings subjRk) isMedRow
  have e4 : (loadMaster courses rankings subjRk med oxb).length =
      (stage3 courses rankings subjRk med).length :=
    leftMerge_length_eq _ _ _ (fun a _ => h4 a.1.1.1.base.university a.1.1.1.base.course)
  rw [e4, e3, e2, e1, enrich, List.length_map]

/-- Every course row appears in some master row, whatever the secondary
tables. -/
lemma loadMaster_mem (courses : List CourseRow) (rankings : List GlobalRankRow)
    (subjRk : List SubjectRankRow) (med : List MedRow) (oxb : List OxbridgeRow)
    {c : CourseRow} (hc : c ∈ courses) :
    ∃ row ∈ loadMaster courses rankings subjRk med oxb, courseOf row = c := by
  have he : enrichRow c ∈ enrich courses := List.mem_map_of_mem _ hc
  obtain ⟨g, hg⟩ := leftMerge_mem rankings
    (fun c r => c.base.university == r.university) he
  obtain ⟨sR, hs⟩ := leftMerge_mem subjRk
    (fun p s => p.1.base.university == s.university && p.1.qs_subject == some s.subject) hg
  by_cases hm : isMedRow ((enrichRow c, g), sR)
  · have hx : ((enrichRow c, g), sR) ∈ (stage2 courses rankings subjRk).filter isMedRow :=
      List.mem_filter.mpr ⟨hs, hm⟩
    obtain ⟨mR, hmr⟩ := leftMerge_mem med
      (fun p m => p.1.1.base.university == m.university) hx
    have hx3 : (((enrichRow c, g), sR), mR) ∈ stage3 courses rankings subjRk med :=
      List.mem_append_left _ hmr
    obtain ⟨o, ho⟩ := leftMerge_mem oxb
      (fun p o => p.1.1.1.base.university == o.university &&
        p.1.1.1.base.course == o.course_match) hx3
    exact ⟨_, ho, rfl⟩
  · rw [Bool.not_eq_true] at hm
    have hx : ((enrichRow c, g), sR) ∈
        (stage2 courses rankings subjRk).filter (fun p => !(isMedRow p)) :=
      List.mem_filter.mpr ⟨hs, by simp [hm]⟩
    have hx3 : (((enrichRow c, g), sR), (none : Option MedRow)) ∈
        stage3 courses rankings subjRk med :=
      List.mem_append_right _ (List.mem_map_of_mem _ hx)
    obtain ⟨o, ho⟩ := leftMerge_mem oxb
      (fun p o => p.1.1.1.base.university == o.university &&
        p.1.1.1.base.course == o.course_match) hx3
    exact ⟨_, ho, rfl⟩

/-- C9 counterexample: with one course row and a global-rankings table
holding two rows for the same university, the merged master set has two
rows, not one — the left-join cardinality invariant fails when a secondary
table duplicates a join key. -/
theorem claim_C9_cardinality_counterexample :
    ([(⟨"U", "Maths Bsc"⟩ : CourseRow)] : List CourseRow).length = 1
    ∧ (loadMaster [⟨"U", "Maths Bsc"⟩] [⟨"U"⟩, ⟨"U"⟩] [] [] []).length = 2 :=
  ⟨rfl, by decide⟩

/-- C9 amended: every course row survives all four joins (the master set
contains a row for it, and is never shorter than the course table), an
unmatched left row is paired with absent foreign columns, and the exact
cardinality equality `len(master) = len(courses)` holds provided every
secondary table has at most one row per join key. -/
theorem claim_C9_cardinality_amended :
    (∀ (courses : List CourseRow) (rankings : List GlobalRankRow)
        (subjRk : List SubjectRankRow) (med : List MedRow) (oxb : List OxbridgeRow),
      (∀ c ∈ courses, ∃ row ∈ loadMaster courses rankings subjRk med oxb, courseOf row = c)
      ∧ courses.length ≤ (loadMaster courses rankings subjRk med oxb).length
      ∧ ((∀ u : String, (rankings.filter (fun r => u == r.university)).length ≤ 1) →
         (∀ (u : String) (sub : Option String),
           (subjRk.filter (fun s => u == s.university && sub == some s.subject)).length ≤ 1) →
         (∀ u : String, (med.filter (fun mr => u == mr.university)).length ≤ 1) →
         (∀ u c : String,
           (oxb.filter (fun o => u == o.university && c == o.course_match)).length ≤ 1) →
         (loadMaster courses rankings subjRk med oxb).length = courses.length))
    ∧ (∀ (α β : Type) (ls : List α) (rs : List β) (m : α → β → Bool) (a : α),
        a ∈ ls → rs.filter (m a) = [] → (a, (none : Option β)) ∈ leftMerge ls rs m) := by
  constructor
  · intro courses rankings subjRk med oxb
    exact ⟨fun c hc => loadMaster_mem courses rankings subjRk med oxb hc,
      loadMaster_length_ge courses rankings subjRk med oxb,
      fun h1 h2 h3 h4 => loadMaster_length_eq courses rankings subjRk med oxb h1 h2 h3 h4⟩
  · intro α β ls rs m a ha h
    exact leftMerge_nomatch ha h

/-- Witness for the amended C9: with key-unique secondary tables the master
cardinality equals the course cardinality, and a course with no Oxbridge
match carries absent Oxbridge columns. -/
theorem claim_C9_cardinality_amended_witness :
    (loadMaster [⟨"U", "Maths Bsc"⟩] [⟨"U"⟩] [] [] []).length =
      ([(⟨"U", "Maths Bsc"⟩ : CourseRow)] : List CourseRow).length
    ∧ ((0 : Nat), (none : Option Nat)) ∈ leftMerge [0] ([] : List Nat) (fun _ _ => true) :=
  ⟨((claim_C9_cardinality_amended.1 [⟨"U", "Maths Bsc"⟩] [⟨"U"⟩] [] [] []).2.2
      (fun u => List.length_filter_le _ _)
      (fun u sub => by simp)
      (fun u => by simp)
      (fun u c => by simp)),
   claim_C9_cardinality_amended.2 Nat Nat [0] [] (fun _ _ => true) 0
      (List.mem_singleton.mpr rfl) rfl⟩

end CourseFinder

namespace CourseFinder

/-! ## Claim theorems: A-Level parsing -/

/-- Unfolding of the grade scanner at a cons cell that does not start an
`A*` token. -/
lemma findGradeStrs_cons_eq (c : Char) (rest : List Char)
    (hne : ∀ rest', c = 'A' → rest = '*' :: rest' → False) :
    findGradeStrs (c :: rest) =
      if 'A'.toNat ≤ c.toNat ∧ c.toNat ≤ 'E'.toNat then String.mk [c] :: findGradeStrs rest
      else findGradeStrs rest := by
  rw [findGradeStrs.eq_def]
  split
  · next heq => exact List.noConfusion heq
  · next rest' heq =>
    injection heq with h1 h2
    exact (hne rest' h1 h2).elim
  · next c2 r2 hne2 heq =>
    injection heq with h1 h2
    subst h1
    subst h2
    rfl

/-- The token sum separates its head token. -/
lemma gradeTokenSum_cons (t : String) (ts : List String) :
    gradeTokenSum (t :: ts) = ((GRADE_VALUES.lookup t).getD 0) + gradeTokenSum ts := by
  have hsh : ∀ (l : List String) (n : Nat),
      l.foldl (fun acc g => acc + ((GRADE_VALUES.lookup g).getD 0)) n =
        n + l.foldl (fun acc g => acc + ((GRADE_VALUES.lookup g).getD 0)) 0 := by
    intro l
    induction l with
    | nil => intro n; simp
    | cons x xs ih =>
      intro n
      simp only [List.foldl_cons]
      rw [ih (n + _), ih (0 + _)]
      omega
  unfold gradeTokenSum
  rw [List.foldl_cons, hsh ts]
  omega

/-- Every matched grade token has value at least 1 under `GRADE_VALUES`. -/
lemma gradeToken_value_ge_one (l : List Char) :
    ∀ t ∈ findGradeStrs l, 1 ≤ (GRADE_VALUES.lookup t).getD 0 := by
  induction l using findGradeStrs.induct with
  | case1 => intro t ht; cases ht
  | case2 rest ih =>
    intro t ht
    rcases List.mem_cons.mp ht with rfl | h
    · decide
    · exact ih t h
  | case3 c rest hne hcond ih =>
    intro t ht
    rw [findGradeStrs_cons_eq c rest hne, if_pos hcond] at ht
    rcases List.mem_cons.mp ht with rfl | h
    · obtain ⟨h1, h2⟩ := hcond
      rw [show ('A'.toNat) = 65 from rfl] at h1
      rw [show ('E'.toNat) = 69 from rfl] at h2
      have hvals : c.toNat = 65 ∨ c.toNat = 66 ∨ c.toNat = 67 ∨ c.toNat = 68 ∨
          c.toNat = 69 := by omega
      have hofn := Char.ofNat_toNat c
      rcases hvals with hv | hv | hv | hv | hv <;>
        (rw [hv] at hofn; rw [← hofn]; decide)
    · exact ih t h
  | case4 c rest hne hcond ih =>
    intro t ht
    rw [findGradeStrs_cons_eq c rest hne, if_neg hcond] at ht
    exact ih t ht

/-- A nonempty token list sums to a positive total. -/
lemma gradeTokenSum_pos {l : List Char} (h : findGradeStrs l ≠ []) :
    0 < gradeTokenSum (findGradeStrs l) := by
  cases hT : findGradeStrs l with
  | nil => exact absurd hT h
  | cons t ts =>
    have hv := gradeToken_value_ge_one l t (by rw [hT]; exact List.mem_cons_self t ts)
    rw [gradeTokenSum_cons]
    omega

/-- Facts about the six grade characters, used to push them through the
whitespace, hyphen and lower-casing machinery. -/
lemma gradeChar_facts :
    ∀ c ∈ "ABCDE*".data,
      isPySpace c = false ∧ ¬ c = '-' ∧ lowerChar c ∈ "abcde*".data := by decide

/-- `dropWhile` is the identity when the predicate never holds. -/
lemma dropWhile_eq_self_of_all {p : Char → Bool} {l : List Char}
    (h : ∀ c ∈ l, p c = false) : l.dropWhile p = l := by
  cases l with
  | nil => rfl
  | cons a as =>
    rw [List.dropWhile_cons_of_neg]
    simp [h a (List.mem_cons_self a as)]

/-- Stripping a string with no whitespace is the identity. -/
lemma pyStrip_eq_self {l : List Char} (h : ∀ c ∈ l, isPySpace c = false) :
    pyStrip l = l := by
  unfold pyStrip
  rw [dropWhile_eq_self_of_all h,
    dropWhile_eq_self_of_all (fun c hc => h c (List.mem_reverse.mp hc)),
    List.reverse_reverse]

/-- `dropWhile` stops no later than an element on which the predicate
fails. -/
lemma dropWhile_append_cons {p : Char → Bool} {c : Char} (hc : p c = false)
    (l1 l2 : List Char) :
    (l1 ++ c :: l2).dropWhile p = l1.dropWhile p ++ c :: l2 := by
  induction l1 with
  | nil =>
    simp only [List.nil_append]
    rw [List.dropWhile_cons_of_neg (by simp [hc]), List.dropWhile_nil]
    rfl
  | cons a as ih =>
    by_cases hp : p a
    · simp only [List.cons_append]
      rw [List.dropWhile_cons_of_pos hp, List.dropWhile_cons_of_pos hp, ih]
    · simp only [List.cons_append]
      rw [List.dropWhile_cons_of_neg hp, List.dropWhile_cons_of_neg hp]
      rfl

/-- Stripping a hyphenated string whose pre-hyphen segment has no
whitespace keeps the segment and the hyphen, right-stripping only the
tail. -/
lemma pyStrip_append_hyphen {x : List Char} (y : List Char) (hne : x ≠ [])
    (h : ∀ c ∈ x, isPySpace c = false) :
    pyStrip (x ++ '-' :: y) = x ++ '-' :: (y.reverse.dropWhile isPySpace).reverse := by
  unfold pyStrip
  have hleft : (x ++ '-' :: y).dropWhile isPySpace = x ++ '-' :: y := by
    cases x with
    | nil => exact absurd rfl hne
    | cons a as =>
      rw [List.cons_append, List.dropWhile_cons_of_neg]
      simp [h a (List.mem_cons_self a as)]
  rw [hleft, List.reverse_append, List.reverse_cons, List.append_assoc]
  rw [show ['-'] ++ x.reverse = '-' :: x.reverse from rfl]
  rw [dropWhile_append_cons (by decide) y.reverse x.reverse]
  rw [List.reverse_append, List.reverse_cons, List.reverse_reverse, List.append_assoc]
  rfl

/-- The pre-hyphen segment of a hyphenated string is the segment itself
when it contains no hyphen. -/
lemma takeWhile_append_hyphen {x : List Char} (y : List Char)
    (h : ∀ c ∈ x, ¬ c = '-') :
    (x ++ '-' :: y).takeWhile (fun c => c ≠ '-') = x := by
  induction x with
  | nil => simp [List.takeWhile_cons]
  | cons a as ih =>
    rw [List.cons_append, List.takeWhile_cons_of_pos, ih (fun c hc => h c (List.mem_cons_of_mem _ hc))]
    simp [h a (List.mem_cons_self a as)]

/-- Singleton substring containment is membership. -/
lemma containsSub_singleton_iff {c : Char} {l : List Char} :
    containsSub [c] l = true ↔ c ∈ l := by
  induction l with
  | nil => simp [containsSub]
  | cons a as ih =>
    simp [containsSub, isPrefixCL, ih, List.mem_cons]

/-- A string headed by a non-hyphen character does not start with "-". -/
lemma isPrefixCL_hyphen_cons {a : Char} {l : List Char} (h : ¬ a = '-') :
    isPrefixCL ['-'] (a :: l) = false := by
  have hba : ('-' == a) = false := by
    rw [beq_eq_false_iff_ne]
    exact fun hh => h hh.symm
  simp [isPrefixCL, hba]

/-- A string whose first lower-cased character is a grade character fails
the empty/"nan"/"not accepted" guard. -/
lemma guard_false_of_head {a : Char} {rest : List Char}
    (ha : lowerChar a ∈ "abcde*".data) :
    ¬ (pyLower (a :: rest) = [] ∨ pyLower (a :: rest) = "nan".data ∨
        pyLower (a :: rest) = "not accepted".data) := by
  intro hor
  rcases hor with h | h | h
  · exact absurd h (by simp [pyLower])
  · have hh := congrArg List.head? h
    simp only [pyLower, List.map_cons, List.head?_cons] at hh
    rw [Option.some_inj.mp hh] at ha
    exact absurd ha (by decide)
  · have hh := congrArg List.head? h
    simp only [pyLower, List.map_cons, List.head?_cons] at hh
    rw [Option.some_inj.mp hh] at ha
    exact absurd ha (by decide)

/-- `parse_alevel_grades` on a pure grade string: the guard, the strip and
the range machinery are all inert, leaving the token sum (absent when no
token matches). -/
lemma parse_alevel_pure {l : List Char} (hne : l ≠ [])
    (hall : ∀ c ∈ l, c ∈ "ABCDE*".data) :
    parseAlevelCore l =
      (if findGradeStrs l = [] then none else some (gradeTokenSum (findGradeStrs l))) := by
  have hns : ∀ c ∈ l, isPySpace c = false := fun c hc => (gradeChar_facts c (hall c hc)).1
  have hstrip : pyStrip l = l := pyStrip_eq_self hns
  simp only [parseAlevelCore, hstrip]
  cases l with
  | nil => exact absurd rfl hne
  | cons a as =>
    have hga := hall a (List.mem_cons_self a as)
    have hlow : lowerChar a ∈ "abcde*".data := (gradeChar_facts a hga).2.2
    rw [if_neg (guard_false_of_head hlow)]
    have hnh : ('-' : Char) ∉ (a :: as) := fun hmem =>
      absurd (hall '-' hmem) (by decide)
    have hcs : ¬ containsSub ['-'] (a :: as) = true := fun hb =>
      hnh (containsSub_singleton_iff.mp hb)
    rw [if_neg (show ¬ (containsSub ['-'] (a :: as) = true ∧
      ¬ isPrefixCL ['-'] (a :: as) = true) from fun hand => hcs hand.1)]
    by_cases ht : findGradeStrs (a :: as) = []
    · rw [if_pos ht, if_pos ht]
    · rw [if_neg ht, if_neg ht, if_pos (gradeTokenSum_pos ht)]

/-- `parse_alevel_grades` on a range string whose pre-hyphen segment is a
nonempty pure grade string: the segment after the hyphen is discarded. -/
lemma parse_alevel_range {x : List Char} (y : List Char) (hne : x ≠ [])
    (hall : ∀ c ∈ x, c ∈ "ABCDE*".data) :
    parseAlevelCore (x ++ '-' :: y) = parseAlevelCore x := by
  have hns : ∀ c ∈ x, isPySpace c = false := fun c hc => (gradeChar_facts c (hall c hc)).1
  have hnohyp : ∀ c ∈ x, ¬ c = '-' := fun c hc => (gradeChar_facts c (hall c hc)).2.1
  have hstrip := pyStrip_append_hyphen y hne hns
  rw [parse_alevel_pure hne hall]
  simp only [parseAlevelCore, hstrip]
  cases x with
  | nil => exact absurd rfl hne
  | cons a as =>
    have hga := hall a (List.mem_cons_self a as)
    have hlow : lowerChar a ∈ "abcde*".data := (gradeChar_facts a hga).2.2
    rw [List.cons_append]
    rw [if_neg (guard_false_of_head hlow)]
    have hcs : containsSub ['-']
        (a :: (as ++ '-' :: (y.reverse.dropWhile isPySpace).reverse)) = true :=
      containsSub_singleton_iff.mpr
        (List.mem_cons_of_mem _ (List.mem_append_right _ (List.mem_cons_self _ _)))
    have hpre : isPrefixCL ['-']
        (a :: (as ++ '-' :: (y.reverse.dropWhile isPySpace).reverse)) = false :=
      isPrefixCL_hyphen_cons (hnohyp a (List.mem_cons_self a as))
    rw [if_pos (show containsSub ['-']
        (a :: (as ++ '-' :: (y.reverse.dropWhile isPySpace).reverse)) = true ∧
      ¬ isPrefixCL ['-']
        (a :: (as ++ '-' :: (y.reverse.dropWhile isPySpace).reverse)) = true from
      ⟨hcs, by simp [hpre]⟩)]
    rw [← List.cons_append,
      takeWhile_append_hyphen ((y.reverse.dropWhile isPySpace).reverse) hnohyp]
    have hany : ("ABCDE*".data.any (fun c => containsSub [c] (a :: as))) = true :=
      List.any_eq_true.mpr
        ⟨a, hga, containsSub_singleton_iff.mpr (List.mem_cons_self a as)⟩
    rw [if_pos hany, pyStrip_eq_self hns]
    by_cases ht : findGradeStrs (a :: as) = []
    · rw [if_pos ht, if_pos ht]
    · rw [if_neg ht, if_neg ht, if_pos (gradeTokenSum_pos ht)]

/-- C5 counterexample: on input "NAN" the scanner matches the grade token
"A" (value 5), so the claim's characterization demands the sum 5, but the
code's guard catches the stripped-lower-cased string "nan" and returns
absent. -/
theorem claim_C5_parse_alevel_counterexample :
    parse_alevel_grades (some "NAN") = none
    ∧ findGradeStrs (pyStrip "NAN".data) = ["A"]
    ∧ gradeTokenSum ["A"] = 5 :=
  ⟨by decide, by decide, by decide⟩

/-- C5 amended: `parse_alevel_grades` returns the sum of the matched grade
token values (A* = 6, A = 5, B = 4, C = 3, D = 2, E = 1), using only the
pre-hyphen segment of a range; it is absent for `None`, empty input,
"Not accepted" (case-insensitive), "nan" (case-insensitive — the pandas NaN
sentinel, the case the original claim misses), and when no token matches;
with the specification's example values. -/
theorem claim_C5_parse_alevel_amended :
    (parse_alevel_grades none = none)
    ∧ (parse_alevel_grades (some "A*A*A") = some 17
       ∧ parse_alevel_grades (some "AAA") = some 15
       ∧ parse_alevel_grades (some "AAB") = some 14
       ∧ parse_alevel_grades (some "ABB-BBB") = some 13
       ∧ parse_alevel_grades (some "ABB - BBB") = some 13
       ∧ parse_alevel_grades (some "Not accepted") = none
       ∧ parse_alevel_grades (some "") = none
       ∧ parse_alevel_grades (some "NAN") = none)
    ∧ (∀ l : List Char, l ≠ [] → (∀ c ∈ l, c ∈ "ABCDE*".data) →
        parse_alevel_grades (some (String.mk l)) =
          (if findGradeStrs l = [] then none else some (gradeTokenSum (findGradeStrs l))))
    ∧ (∀ x y : List Char, x ≠ [] → (∀ c ∈ x, c ∈ "ABCDE*".data) →
        parse_alevel_grades (some (String.mk (x ++ '-' :: y))) =
          parse_alevel_grades (some (String.mk x))) := by
  refine ⟨rfl,
    ⟨by decide, by decide, by decide, by decide, by decide, by decide, by decide, by decide⟩,
    ?_, ?_⟩
  · intro l hne hall
    exact parse_alevel_pure hne hall
  · intro x y hne hall
    exact parse_alevel_range y hne hall

/-- Witness for the amended C5: the pure-string characterization at "A*AB"
and the range rule at "AAB-ABB". -/
theorem claim_C5_parse_alevel_amended_witness :
    (parse_alevel_grades (some (String.mk "A*AB".data)) =
      (if findGradeStrs "A*AB".data = [] then none
       else some (gradeTokenSum (findGradeStrs "A*AB".data))))
    ∧ parse_alevel_grades (some (String.mk ("AAB".data ++ '-' :: "ABB".data))) =
        parse_alevel_grades (some (String.mk "AAB".data)) :=
  ⟨claim_C5_parse_alevel_amended.2.2.1 "A*AB".data (by decide) (by decide),
   claim_C5_parse_alevel_amended.2.2.2 "AAB".data "ABB".data (by decide) (by decide)⟩

end CourseFinder


